import Mathlib

/-!
Verification of the UserModule multi-tenant signage backend.

This development gives a shallow embedding of the authorization and
credential-lifecycle core of the repository: the role model and the
management policy (app/models/user.py), the invitation lifecycle
(app/models/invitation.py, app/routers/invitations.py), the token service
(app/utils/auth.py), the device pairing operations (app/models/device.py,
app/routers/devices.py), tenant capacity checks (app/models/company.py,
app/routers/users.py), the SSO callback bootstrap rule
(app/routers/auth.py), and the crypto vault (app/utils/encryption.py).

Database rows are embedded as Lean structures, the database as lists of
rows, timestamps as natural numbers (seconds), and each request handler as
a function from its inputs and the current store to a result together with
the updated store.  External collaborators (the PBKDF2 key derivation, the
AES-GCM cipher and the base64 codec from the Python standard and
cryptography libraries, and the signing layer of the jose JWT library) are
modelled by executable Lean functions that exhibit exactly the interface
guarantees the repository relies on (determinism, inversion, tag checking,
injective printable encoding, signature and expiry validation).
-/

namespace UserModule

/-! ## Data model: roles and users (app/models/user.py) -/

inductive UserRole
  | SUPER_ADMIN
  | ADMIN
  | USER
deriving DecidableEq, Repr

structure User where
  id : Nat
  email : String
  google_id : Option String
  full_name : String
  profile_picture_url : Option String
  role : UserRole
  company_id : Option Nat
  can_add_devices : Bool
  is_active : Bool
  last_login : Option Nat
deriving DecidableEq, Repr

def User.is_super_admin (u : User) : Bool :=
  match u.role with
  | UserRole.SUPER_ADMIN => true
  | _ => false

def User.is_admin (u : User) : Bool :=
  match u.role with
  | UserRole.ADMIN => true
  | _ => false

def User.is_regular_user (u : User) : Bool :=
  match u.role with
  | UserRole.USER => true
  | _ => false

/-- Translation of User.can_manage_user: super admins manage everyone;
admins manage users of their company except other admins and super
admins; everyone else manages nobody. -/
def User.can_manage_user (self target : User) : Bool :=
  if self.is_super_admin then true
  else if self.is_admin && (target.company_id == self.company_id) then
    if target.is_admin || target.is_super_admin then false else true
  else false

/-! ## Data model: invitations (app/models/invitation.py) -/

inductive InvitationStatus
  | PENDING
  | ACCEPTED
  | EXPIRED
  | CANCELLED
deriving DecidableEq, Repr

structure Invitation where
  id : Nat
  email : String
  role : String
  company_id : Option Nat
  invited_by : Option Nat
  token : String
  status : InvitationStatus
  expires_at : Nat
  created_at : Nat
  accepted_at : Option Nat
deriving DecidableEq, Repr

/-- Translation of Invitation.is_expired: datetime.utcnow() > expires_at. -/
def Invitation.is_expired (now : Nat) (inv : Invitation) : Bool :=
  decide (now > inv.expires_at)

/-- Translation of Invitation.is_valid: status is PENDING and the
invitation is not expired. -/
def Invitation.is_valid (now : Nat) (inv : Invitation) : Bool :=
  decide (inv.status = InvitationStatus.PENDING) && !(inv.is_expired now)

def Invitation.mark_as_accepted (now : Nat) (inv : Invitation) : Invitation :=
  { inv with status := InvitationStatus.ACCEPTED, accepted_at := some now }

def Invitation.mark_as_expired (inv : Invitation) : Invitation :=
  { inv with status := InvitationStatus.EXPIRED }

def Invitation.mark_as_cancelled (inv : Invitation) : Invitation :=
  { inv with status := InvitationStatus.CANCELLED }

/-! ## C3: the management decision table -/

/-- C3: can_manage_user implements the authorization decision table — the
result is true exactly when the actor is a SUPER_ADMIN, or the actor is an
ADMIN, the target is a USER, and the target company equals the actor
company; in every other case (ADMIN on ADMIN or SUPER_ADMIN even in the
same tenant, any USER actor) it is false. -/
theorem can_manage_user_decision_table (a t : User) :
    a.can_manage_user t = true ↔
      (a.role = UserRole.SUPER_ADMIN ∨
        (a.role = UserRole.ADMIN ∧ t.role = UserRole.USER ∧
          t.company_id = a.company_id)) := by
  obtain ⟨_, _, _, _, _, ra, ca, _, _, _⟩ := a
  obtain ⟨_, _, _, _, _, rt, ct, _, _, _⟩ := t
  cases ra <;> cases rt <;>
    simp [User.can_manage_user, User.is_super_admin, User.is_admin, beq_iff_eq]

/-! ## C6: invitation validity -/

def invAtBoundary : Invitation :=
  { id := 1
    email := "invitee(at)example.com"
    role := "user"
    company_id := some 1
    invited_by := some 2
    token := "tok-abc"
    status := InvitationStatus.PENDING
    expires_at := 100
    created_at := 0
    accepted_at := none }

/-- C6 counterexample: at the exact expiry instant (now equal to
expires_at) is_valid still returns true, while the claim (status PENDING
and now strictly before expires_at) predicts false: is_expired uses a
strict greater-than comparison, so validity extends through the expiry
instant. -/
theorem is_valid_at_expiry_instant_counterexample :
    Invitation.is_valid 100 invAtBoundary = true ∧
      invAtBoundary.status = InvitationStatus.PENDING ∧
      ¬ (100 < invAtBoundary.expires_at) := by
  refine ⟨rfl, rfl, by decide⟩

/-- C6 (amended): is_valid returns true exactly when the status is PENDING
and now is at most expires_at; hence an invitation whose expires_at lies
strictly in the past is never reported valid even while its stored status
is still PENDING. -/
theorem is_valid_iff_pending_and_not_past_expiry (now : Nat) (inv : Invitation) :
    inv.is_valid now = true ↔
      (inv.status = InvitationStatus.PENDING ∧ now ≤ inv.expires_at) := by
  simp [Invitation.is_valid, Invitation.is_expired, Nat.not_lt]

/-! ## Token service (app/utils/auth.py)

A JWT is embedded as its payload record together with the key it was
signed with; the jose layer is modelled by jwt_decode, which succeeds
exactly when the presented signing secret matches and the expiry claim is
not in the past (jose raises ExpiredSignatureError, a JWTError, when
exp is strictly less than the current time). -/

inductive ApiError
  | couldNotValidateCredentials
  | forbiddenAddDevices
  | invalidDeviceCode
  | deviceAlreadyLinked
  | registrationByInvitationOnly
  | invitationNotFound
  | userEmailExists
  | companyNotFound
  | companyUserLimitReached
  | typeErrorMissingArgument
deriving DecidableEq, Repr

def accessType : String := "access"

def refreshType : String := "refresh"

structure Token where
  key : String
  sub : Option String
  email : String
  role : Option String
  company_id : Option String
  typ : Option String
  exp : Nat
  iat : Nat
deriving DecidableEq, Repr

/-- Translation of create_access_token: payload with sub, email, role,
company id, type access, expiry now plus the configured minutes. -/
def create_access_token (secret : String) (expire_minutes : Nat) (now : Nat)
    (user_id email role : String) (company_id : Option String) : Token :=
  { key := secret
    sub := some user_id
    email := email
    role := some role
    company_id := company_id
    typ := some accessType
    exp := now + expire_minutes * 60
    iat := now }

/-- Translation of create_refresh_token: minimal payload with sub, email,
type refresh, expiry now plus the configured days. -/
def create_refresh_token (secret : String) (expire_days : Nat) (now : Nat)
    (user_id email : String) : Token :=
  { key := secret
    sub := some user_id
    email := email
    role := none
    company_id := none
    typ := some refreshType
    exp := now + expire_days * 86400
    iat := now }

/-- Model of jose jwt.decode: returns the payload when the signature
matches the signing secret and the exp claim is not strictly in the past,
and fails (JWTError) otherwise. -/
def jwt_decode (secret : String) (now : Nat) (t : Token) : Option Token :=
  if t.key = secret ∧ now ≤ t.exp then some t else none

/-- Translation of verify_token: decode and check the signature and
expiry, then check the type claim against the expected kind, then check
that the subject claim is present; every failure raises the single
credentials exception. -/
def verify_token (secret : String) (now : Nat) (token : Token)
    (expected_type : String) : Except ApiError Token :=
  match jwt_decode secret now token with
  | none => .error .couldNotValidateCredentials
  | some payload =>
    if payload.typ ≠ some expected_type then .error .couldNotValidateCredentials
    else
      match payload.sub with
      | none => .error .couldNotValidateCredentials
      | some _ => .ok payload

/-- C2: verify_token raises the invalid-credentials error exactly when the
signature is invalid, or the token is past its expiry, or the type claim
differs from the expected type, or the subject claim is missing; in
particular a refresh-minted token is always rejected where an access token
is expected and vice versa, and an expired token with a valid signature is
rejected. -/
theorem verify_token_invalid_credentials_iff (secret : String) (now : Nat)
    (t : Token) (expected : String) :
    (verify_token secret now t expected = .error .couldNotValidateCredentials ↔
      (t.key ≠ secret ∨ t.exp < now ∨ t.typ ≠ some expected ∨ t.sub = none)) ∧
    (∀ d n uid em, verify_token secret now
        (create_refresh_token secret d n uid em) accessType =
      .error .couldNotValidateCredentials) ∧
    (∀ m n uid em r cid, verify_token secret now
        (create_access_token secret m n uid em r cid) refreshType =
      .error .couldNotValidateCredentials) ∧
    (t.key = secret → t.exp < now →
      verify_token secret now t expected = .error .couldNotValidateCredentials) := by
  refine ⟨?_, ?_, ?_, ?_⟩
  · unfold verify_token jwt_decode
    by_cases hk : t.key = secret <;>
      by_cases he : now ≤ t.exp <;>
        by_cases ht : t.typ = some expected <;>
          cases hs : t.sub <;>
            simp [hk, he, ht, hs, Nat.not_le.mpr, Nat.lt_of_not_le, Nat.not_le]
  · intro d n uid em
    unfold verify_token jwt_decode create_refresh_token
    by_cases he : now ≤ n + d * 86400 <;>
      simp [he, accessType, refreshType]
  · intro m n uid em r cid
    unfold verify_token jwt_decode create_access_token
    by_cases he : now ≤ n + m * 60 <;>
      simp [he, accessType, refreshType]
  · intro hk he
    unfold verify_token jwt_decode
    simp [hk, Nat.not_le.mpr he]

/-- C2 witness: the rejection cases evaluated at concrete tokens. -/
theorem verify_token_invalid_credentials_iff_witness :
    (verify_token ("s3cret") 1000
        (create_refresh_token ("s3cret") 7 0 ("42") ("a(at)b.c")) accessType =
      .error .couldNotValidateCredentials) ∧
    (verify_token ("s3cret") 1000
        { key := "s3cret", sub := some ("42"), email := "a(at)b.c",
          role := some ("user"), company_id := none, typ := some accessType,
          exp := 999, iat := 0 } accessType =
      .error .couldNotValidateCredentials) := by
  constructor
  · exact (verify_token_invalid_credentials_iff ("s3cret") 1000
      (create_refresh_token ("s3cret") 7 0 ("42") ("a(at)b.c")) accessType).2.1
      7 0 ("42") ("a(at)b.c")
  · exact (verify_token_invalid_credentials_iff ("s3cret") 1000
      { key := "s3cret", sub := some ("42"), email := "a(at)b.c",
        role := some ("user"), company_id := none, typ := some accessType,
        exp := 999, iat := 0 } accessType).2.2.2 rfl (by decide)

/-! ## Invitation cancel handler (app/routers/invitations.py) -/

/-- Translation of cancel_invitation: look up the invitation by id within
the requesting admin company; 404 when absent; otherwise set the status to
cancelled unconditionally — the handler never inspects the current
status. -/
def cancel_invitation (invs : List Invitation) (current_user : User)
    (invitation_id : Nat) : Except ApiError Unit × List Invitation :=
  match invs.find? (fun i =>
      i.id == invitation_id && i.company_id == current_user.company_id) with
  | none => (.error .invitationNotFound, invs)
  | some _ =>
    (.ok (), invs.map (fun i =>
      if i.id == invitation_id && i.company_id == current_user.company_id
      then { i with status := InvitationStatus.CANCELLED } else i))

def acceptedInv : Invitation :=
  { id := 5
    email := "done(at)example.com"
    role := "user"
    company_id := some 1
    invited_by := some 2
    token := "tok-acc"
    status := InvitationStatus.ACCEPTED
    expires_at := 1000
    created_at := 0
    accepted_at := some 500 }

def adminOfCompany1 : User :=
  { id := 2
    email := "admin(at)example.com"
    google_id := none
    full_name := "Admin"
    profile_picture_url := none
    role := UserRole.ADMIN
    company_id := some 1
    can_add_devices := true
    is_active := true
    last_login := none }

/-- C9 uses a separate concrete set; C7 evidence: the cancel handler moves
an invitation that is already in the terminal state ACCEPTED to CANCELLED,
because it updates the status without checking it first. -/
theorem cancel_invitation_cancels_accepted_invitation :
    acceptedInv.status = InvitationStatus.ACCEPTED ∧
      (cancel_invitation [acceptedInv] adminOfCompany1 5).1 = .ok () ∧
      ((cancel_invitation [acceptedInv] adminOfCompany1 5).2.map
          Invitation.status) = [InvitationStatus.CANCELLED] := by
  refine ⟨rfl, rfl, rfl⟩

/-! ## SSO callback (app/routers/auth.py) -/

/-- Translation of the user-provisioning part of google_callback: look up
the user by email; an existing user gets google id, picture and last login
updated; for an unknown email the invitation token in the state parameter
is only logged (validation is an unimplemented TODO in the source), then
the global user count decides: zero means the new user is created as
SUPER_ADMIN with no company, anything else is rejected with the
registration-by-invitation-only error and nothing is created. -/
def google_callback (users : List User) (email full_name google_id : String)
    (picture : Option String) (_state : Option String) (newId now : Nat) :
    Except ApiError User × List User :=
  match users.find? (fun u => u.email == email) with
  | some u =>
    let u2 := { u with google_id := some google_id,
                       profile_picture_url := picture,
                       last_login := some now }
    (.ok u2, users.map (fun v => if v.id == u.id then u2 else v))
  | none =>
    let user_count := users.length
    if user_count = 0 then
      let u : User :=
        { id := newId
          email := email
          google_id := some google_id
          full_name := full_name
          profile_picture_url := picture
          role := UserRole.SUPER_ADMIN
          company_id := none
          can_add_devices := false
          is_active := true
          last_login := some now }
      (.ok u, users ++ [u])
    else (.error .registrationByInvitationOnly, users)

/-- C4: in the SSO callback, when no user matches the email: with a global
user count of zero the created user is SUPER_ADMIN with no company; with a
non-zero count and no invitation presented the request is rejected with
the invitation-only error and the user set is unchanged. -/
theorem google_callback_bootstrap_invitation_only (users : List User)
    (email full_name google_id : String) (picture state : Option String)
    (newId now : Nat)
    (hnone : users.find? (fun u => u.email == email) = none) :
    (users.length = 0 →
      ∃ u, google_callback users email full_name google_id picture state
          newId now = (.ok u, [u]) ∧
        u.role = UserRole.SUPER_ADMIN ∧ u.company_id = none) ∧
    (users.length ≠ 0 → state = none →
      google_callback users email full_name google_id picture state
          newId now = (.error .registrationByInvitationOnly, users)) := by
  constructor
  · intro hlen
    have husers : users = [] := List.length_eq_zero.mp hlen
    subst husers
    exact ⟨_, rfl, rfl, rfl⟩
  · intro hlen _
    unfold google_callback
    rw [hnone]
    simp [hlen]

/-- C4 witness: bootstrap on the empty store creates the SUPER_ADMIN, and
a second unknown identity without an invitation is rejected. -/
theorem google_callback_bootstrap_invitation_only_witness :
    (∃ u, google_callback [] ("first(at)x.io") ("First") ("g-1") none none 1 50 =
        (.ok u, [u]) ∧ u.role = UserRole.SUPER_ADMIN ∧ u.company_id = none) ∧
    google_callback [adminOfCompany1] ("second(at)x.io") ("Second") ("g-2")
        none none 3 60 =
      (.error .registrationByInvitationOnly, [adminOfCompany1]) := by
  constructor
  · exact (google_callback_bootstrap_invitation_only []
      ("first(at)x.io") ("First") ("g-1") none none 1 50 rfl).1 rfl
  · exact (google_callback_bootstrap_invitation_only [adminOfCompany1]
      ("second(at)x.io") ("Second") ("g-2") none none 3 60 rfl).2
      (by decide) rfl

/-! ## Data model: devices (app/models/device.py) -/

structure Device where
  id : Nat
  user_id : Option Nat
  company_id : Option Nat
  device_name : String
  device_code : Option String
  device_id : String
  is_online : Bool
  is_linked : Bool
  current_playlist_id : Option Nat
  last_seen : Option Nat
  created_at : Nat
  linked_at : Option Nat
deriving DecidableEq, Repr

/-- Translation of Device.regenerate_code: install a freshly generated
code (passed in for the random draw) and clear the linked flag. -/
def Device.regenerate_code (code : String) (d : Device) : Device :=
  { d with device_code := some code, is_linked := false }

/-- Translation of Device.link_to_user: set owner and company, set the
linked flag, stamp linked_at, clear the code. -/
def Device.link_to_user (user_id company_id : Nat) (now : Nat) (d : Device) : Device :=
  { d with user_id := some user_id
           company_id := some company_id
           is_linked := true
           linked_at := some now
           device_code := none }

/-- Translation of Device.unlink_from_user: clear owner, company, linked
stamp and playlist, then regenerate a code. -/
def Device.unlink_from_user (code : String) (d : Device) : Device :=
  Device.regenerate_code code
    { d with user_id := none
             company_id := none
             is_linked := false
             linked_at := none
             current_playlist_id := none }

/-- Translation of Device.update_heartbeat: stamp last_seen, set online. -/
def Device.update_heartbeat (now : Nat) (d : Device) : Device :=
  { d with last_seen := some now, is_online := true }

/-- Translation of Device.is_code_expired: false when there is no code or
the device is linked, else true when the code age exceeds the configured
expiry minutes. -/
def Device.is_code_expired (now expire_minutes : Nat) (d : Device) : Bool :=
  if d.device_code.isNone || d.is_linked then false
  else decide (now - d.created_at > expire_minutes * 60)

/-- Invariant of the device record stated by the spec: linked implies
owner and company are present and the code is cleared; unlinked implies a
code is present. -/
def deviceInvariant (d : Device) : Prop :=
  (d.is_linked = true →
    d.user_id ≠ none ∧ d.company_id ≠ none ∧ d.device_code = none) ∧
  (d.is_linked = false → d.device_code ≠ none)

/-! ## Device router handlers (app/routers/devices.py) -/

/-- Translation of the generate-code handler: draw a 4-digit code (passed
in for the random draw); when a device with the hardware id exists,
overwrite its code and name and mark it online — without touching
is_linked; otherwise insert a new unlinked device carrying the code. -/
def generate_device_code (devices : List Device) (device_id device_name : String)
    (code : String) (newId now : Nat) : String × List Device :=
  match devices.find? (fun d => d.device_id == device_id) with
  | some d =>
    (code, devices.map (fun e =>
      if e.id == d.id then
        { e with device_code := some code, device_name := device_name,
                 is_online := true }
      else e))
  | none =>
    let d : Device :=
      { id := newId
        user_id := none
        company_id := none
        device_name := device_name
        device_code := some code
        device_id := device_id
        is_online := true
        is_linked := false
        current_playlist_id := none
        last_seen := none
        created_at := now
        linked_at := none }
    (code, devices ++ [d])

/-- Translation of the link handler: reject users without the
can_add_devices permission; look the device up by pairing code (404
invalid code when absent, 409 when already linked); then set owner and
company, set the linked flag and clear the code.  The handler performs no
code-expiry check, no company capacity check, and never stamps
linked_at. -/
def link_device (devices : List Device) (current_user : User)
    (device_code : String) : Except ApiError Unit × List Device :=
  if !current_user.can_add_devices then (.error .forbiddenAddDevices, devices)
  else
    match devices.find? (fun d => d.device_code == some device_code) with
    | none => (.error .invalidDeviceCode, devices)
    | some d =>
      if d.is_linked then (.error .deviceAlreadyLinked, devices)
      else
        (.ok (), devices.map (fun e =>
          if e.id == d.id then
            { e with user_id := some current_user.id,
                     company_id := current_user.company_id,
                     is_linked := true,
                     device_code := none }
          else e))

/-! ## C5: the link-by-code operation -/

def staleCodeDevice : Device :=
  { id := 1
    user_id := none
    company_id := none
    device_name := "Lobby TV"
    device_code := some ("1234")
    device_id := "hw-lobby-1"
    is_online := true
    is_linked := false
    current_playlist_id := none
    last_seen := none
    created_at := 0
    linked_at := none }

/-- C5 evidence: with the default 15-minute TTL, the pairing code of
staleCodeDevice is expired at time 10000, yet the link handler accepts it
and links the device, and the linked record still has linked_at set to
none — the handler checks neither Device.is_code_expired nor the company
device limit and never stamps linked_at. -/
theorem link_device_accepts_expired_code_and_skips_linked_at :
    Device.is_code_expired 10000 15 staleCodeDevice = true ∧
      (link_device [staleCodeDevice] adminOfCompany1 ("1234")).1 = .ok () ∧
      ((link_device [staleCodeDevice] adminOfCompany1 ("1234")).2.map
          (fun d => (d.is_linked, d.linked_at, d.user_id))) =
        [(true, none, some 2)] := by
  refine ⟨rfl, rfl, rfl⟩

/-! ## C9: the device-record invariant across the handlers -/

/-- C9 evidence: register a device, link it, then let the device ask for a
fresh pairing code again (the TV calls generate-code on every launch).
The generate-code handler installs the new code without clearing
is_linked, so the resulting record is linked and still carries a pairing
code, violating the invariant. -/
theorem generate_code_on_linked_device_breaks_invariant :
    ((generate_device_code
        (link_device
          (generate_device_code [] ("hw-1") ("Den TV") ("1234") 1 0).2
          adminOfCompany1 ("1234")).2
        ("hw-1") ("Den TV") ("5678") 2 2000).2.map
      (fun d => (d.is_linked, d.device_code))) = [(true, some ("5678"))] ∧
    ¬ deviceInvariant
      { id := 1
        user_id := some 2
        company_id := some 1
        device_name := "Den TV"
        device_code := some ("5678")
        device_id := "hw-1"
        is_online := true
        is_linked := true
        current_playlist_id := none
        last_seen := none
        created_at := 0
        linked_at := none } := by
  constructor
  · rfl
  · intro h
    exact absurd (h.1 rfl).2.2 (by decide)

/-! ## Data model: companies and the user-creation handler
(app/models/company.py, app/routers/users.py) -/

structure Company where
  id : Nat
  name : String
  subdomain : Option String
  is_active : Bool
  max_users : Nat
  max_devices : Nat
deriving DecidableEq, Repr

/-- Translation of Company.get_active_users_count: count the active users
of the company in the store (the db session argument of the source). -/
def Company.get_active_users_count (c : Company) (users : List User) : Nat :=
  (users.filter (fun u => u.company_id == some c.id && u.is_active)).length

/-- Translation of Company.can_add_user: the active user count is strictly
below max_users.  The source signature requires a database session
argument. -/
def Company.can_add_user (c : Company) (users : List User) : Bool :=
  decide (c.get_active_users_count users < c.max_users)

structure UserCreate where
  email : String
  full_name : String
  role : UserRole
  company_id : Option Nat
  can_add_devices : Bool
deriving DecidableEq, Repr

/-- Translation of the create_user handler: reject an existing email;
when a company id is given, look the company up (404 when absent) and then
evaluate the capacity guard.  At that point the source calls
company.can_add_user() with no argument although the method requires the
database session parameter, so the interpreter raises a TypeError before
any capacity comparison or insert happens; the handler has no handler for
it (the call sits before the try block), so every creation under a tenant
fails with the unhandled-TypeError outcome.  Only the company-less path
reaches the insert. -/
def create_user (users : List User) (companies : List Company)
    (data : UserCreate) (newId : Nat) : Except ApiError User × List User :=
  if users.any (fun u => u.email == data.email) then
    (.error .userEmailExists, users)
  else
    match data.company_id with
    | some cid =>
      match companies.find? (fun c => c.id == cid) with
      | none => (.error .companyNotFound, users)
      | some _ => (.error .typeErrorMissingArgument, users)
    | none =>
      let u : User :=
        { id := newId
          email := data.email
          google_id := none
          full_name := data.full_name
          profile_picture_url := none
          role := data.role
          company_id := none
          can_add_devices := data.can_add_devices
          is_active := true
          last_login := none }
      (.ok u, users ++ [u])

def oneSeatCompany : Company :=
  { id := 1
    name := "Acme"
    subdomain := none
    is_active := true
    max_users := 1
    max_devices := 5 }

def seatTaker : User :=
  { id := 10
    email := "taken(at)acme.io"
    google_id := none
    full_name := "Taken"
    profile_picture_url := none
    role := UserRole.USER
    company_id := some 1
    can_add_devices := false
    is_active := true
    last_login := none }

def secondSeatRequest : UserCreate :=
  { email := "new(at)acme.io"
    full_name := "New"
    role := UserRole.USER
    company_id := some 1
    can_add_devices := false }

/-- C8 evidence: for the one-seat company with its seat taken, the
model-layer guard Company.can_add_user reports the capacity as exhausted,
but the handler never reaches a capacity error: it fails with the
unhandled TypeError from calling can_add_user without the session
argument, and it fails the same way even when the company still has free
seats, leaving the user set unchanged in both runs. -/
theorem create_user_capacity_path_raises_type_error :
    oneSeatCompany.can_add_user [seatTaker] = false ∧
      create_user [seatTaker] [oneSeatCompany] secondSeatRequest 11 =
        (.error .typeErrorMissingArgument, [seatTaker]) ∧
      create_user [] [oneSeatCompany] secondSeatRequest 11 =
        (.error .typeErrorMissingArgument, []) := by
  refine ⟨rfl, rfl, rfl⟩

/-! ## Crypto vault (app/utils/encryption.py)

Plaintexts, keys and blobs are byte lists (the UTF-8 bytes of the Python
strings).  The PBKDF2HMAC-SHA256 derivation, the AES-GCM cipher and the
base64 codec are external library collaborators; they are modelled by
executable functions with exactly the guarantees the source relies on:
derivation is a deterministic function of password and salt producing 32
bytes, the cipher is length-preserving, invertible under the same key and
nonce and guarded by a 16-byte tag appended to the ciphertext, and the
base64 codec is an injective printable encoding with decode inverting
encode.  The byte-mixing primitive below stands in for the hash. -/

def mix (a b : Nat) : Nat := (a * 131 + b + 7) % 256

def prfByte (seed : Nat) (l : List Nat) : Nat := l.foldl mix (seed % 256)

theorem foldl_mix_lt : ∀ (l : List Nat) (init : Nat), init < 256 →
    List.foldl mix init l < 256
  | [], _, h => h
  | x :: xs, init, _ => by
    have := foldl_mix_lt xs (mix init x) (Nat.mod_lt _ (by omega))
    simpa using this

theorem prfByte_lt (seed : Nat) (l : List Nat) : prfByte seed l < 256 :=
  foldl_mix_lt l (seed % 256) (Nat.mod_lt _ (by omega))

/-- Model of _derive_key (PBKDF2HMAC-SHA256, 100000 iterations): a
deterministic 32-byte key from the password bytes and the salt. -/
def deriveKey (password salt : List Nat) : List Nat :=
  (List.range 32).map (fun i =>
    prfByte (i + 101 * password.length + 59 * salt.length) (password ++ salt))

theorem deriveKey_lt (password salt : List Nat) :
    ∀ b ∈ deriveKey password salt, b < 256 := by
  intro b hb
  simp only [deriveKey, List.mem_map] at hb
  obtain ⟨i, _, rfl⟩ := hb
  exact prfByte_lt _ _

/-- Keystream byte of the modelled AES-GCM cipher at a given position. -/
def ks (key nonce : List Nat) (i : Nat) : Nat := prfByte (i + 1) (key ++ nonce)

theorem ks_lt (key nonce : List Nat) (i : Nat) : ks key nonce i < 256 :=
  prfByte_lt _ _

def streamEnc (key nonce : List Nat) : Nat → List Nat → List Nat
  | _, [] => []
  | i, p :: ps => (p + ks key nonce i) % 256 :: streamEnc key nonce (i + 1) ps

def streamDec (key nonce : List Nat) : Nat → List Nat → List Nat
  | _, [] => []
  | i, c :: cs => (c + 256 - ks key nonce i) % 256 :: streamDec key nonce (i + 1) cs

theorem streamEnc_length (key nonce : List Nat) :
    ∀ (i : Nat) (pt : List Nat), (streamEnc key nonce i pt).length = pt.length
  | _, [] => rfl
  | i, _ :: ps => by simp [streamEnc, streamEnc_length key nonce (i + 1) ps]

theorem streamEnc_lt (key nonce : List Nat) :
    ∀ (i : Nat) (pt : List Nat), ∀ b ∈ streamEnc key nonce i pt, b < 256
  | _, [], _, hb => by simp [streamEnc] at hb
  | i, p :: ps, b, hb => by
    simp only [streamEnc, List.mem_cons] at hb
    rcases hb with rfl | hb
    · exact Nat.mod_lt _ (by omega)
    · exact streamEnc_lt key nonce (i + 1) ps b hb

theorem streamDec_streamEnc (key nonce : List Nat) :
    ∀ (i : Nat) (pt : List Nat), (∀ b ∈ pt, b < 256) →
      streamDec key nonce i (streamEnc key nonce i pt) = pt
  | _, [], _ => rfl
  | i, p :: ps, h => by
    have hp : p < 256 := h p (by simp)
    have hk : ks key nonce i < 256 := ks_lt key nonce i
    have ih := streamDec_streamEnc key nonce (i + 1) ps
      (fun b hb => h b (by simp [hb]))
    simp only [streamEnc, streamDec, ih, List.cons.injEq, and_true]
    omega

/-- Authentication tag of the modelled AES-GCM cipher: 16 bytes computed
from key, nonce and ciphertext. -/
def gcmTag (key nonce ct : List Nat) : List Nat :=
  (List.range 16).map (fun i => prfByte (i + 3) (key ++ nonce ++ ct))

theorem gcmTag_lt (key nonce ct : List Nat) : ∀ b ∈ gcmTag key nonce ct, b < 256 := by
  intro b hb
  simp only [gcmTag, List.mem_map] at hb
  obtain ⟨i, _, rfl⟩ := hb
  exact prfByte_lt _ _

/-- Model of AESGCM.encrypt: ciphertext followed by the tag. -/
def aesgcm_encrypt (key nonce pt : List Nat) : List Nat :=
  streamEnc key nonce 0 pt ++ gcmTag key nonce (streamEnc key nonce 0 pt)

/-- Model of AESGCM.decrypt: split off the 16-byte tag, verify it, and
invert the cipher; tag mismatch or truncation fails. -/
def aesgcm_decrypt (key nonce data : List Nat) : Option (List Nat) :=
  if data.length < 16 then none
  else if data.drop (data.length - 16) =
      gcmTag key nonce (data.take (data.length - 16)) then
    some (streamDec key nonce 0 (data.take (data.length - 16)))
  else none

theorem aesgcm_encrypt_lt (key nonce pt : List Nat) :
    ∀ b ∈ aesgcm_encrypt key nonce pt, b < 256 := by
  intro b hb
  simp only [aesgcm_encrypt, List.mem_append] at hb
  rcases hb with hb | hb
  · exact streamEnc_lt key nonce 0 pt b hb
  · exact gcmTag_lt key nonce _ b hb

theorem aesgcm_decrypt_encrypt (key nonce pt : List Nat)
    (h : ∀ b ∈ pt, b < 256) :
    aesgcm_decrypt key nonce (aesgcm_encrypt key nonce pt) = some pt := by
  have hct : (streamEnc key nonce 0 pt).length = pt.length :=
    streamEnc_length key nonce 0 pt
  have hlen : (streamEnc key nonce 0 pt ++
      gcmTag key nonce (streamEnc key nonce 0 pt)).length = pt.length + 16 := by
    simp [hct, gcmTag]
  unfold aesgcm_encrypt aesgcm_decrypt
  rw [hlen]
  rw [if_neg (by omega)]
  have hsub : pt.length + 16 - 16 = (streamEnc key nonce 0 pt).length := by
    omega
  rw [hsub, List.take_left, List.drop_left, if_pos rfl,
    streamDec_streamEnc key nonce 0 pt h]

/-! ### Base64 codec (model of base64.b64encode / b64decode) -/

def b64Alphabet : List Nat :=
  [65, 66, 67, 68, 69, 70, 71, 72, 73, 74, 75, 76, 77, 78, 79, 80, 81, 82,
   83, 84, 85, 86, 87, 88, 89, 90,
   97, 98, 99, 100, 101, 102, 103, 104, 105, 106, 107, 108, 109, 110, 111,
   112, 113, 114, 115, 116, 117, 118, 119, 120, 121, 122,
   48, 49, 50, 51, 52, 53, 54, 55, 56, 57, 43, 47]

def encChar (s : Nat) : Nat := b64Alphabet.getD s 0

def decChar (c : Nat) : Option Nat :=
  if b64Alphabet.indexOf c < 64 then some (b64Alphabet.indexOf c) else none

theorem decChar_encChar (s : Nat) (hs : s < 64) : decChar (encChar s) = some s := by
  have h : ∀ t : Fin 64, decChar (encChar t.val) = some t.val := by decide
  exact h ⟨s, hs⟩

def b64encode : List Nat → List Nat
  | [] => []
  | [a] => [encChar (a / 4), encChar (a % 4 * 16), 61, 61]
  | [a, b] => [encChar (a / 4), encChar (a % 4 * 16 + b / 16),
               encChar (b % 16 * 4), 61]
  | a :: b :: c :: rest =>
    encChar (a / 4) :: encChar (a % 4 * 16 + b / 16) ::
      encChar (b % 16 * 4 + c / 64) :: encChar (c % 64) :: b64encode rest

def b64decode : List Nat → Option (List Nat)
  | w :: x :: y :: z :: rest =>
    (decChar w).bind fun sw => (decChar x).bind fun sx =>
      if y = 61 ∧ z = 61 ∧ rest = [] then some [sw * 4 + sx / 16]
      else if z = 61 ∧ rest = [] then
        (decChar y).bind fun sy =>
          some [sw * 4 + sx / 16, sx % 16 * 16 + sy / 4]
      else
        (decChar y).bind fun sy => (decChar z).bind fun sz =>
          (b64decode rest).map fun tail =>
            (sw * 4 + sx / 16) :: (sx % 16 * 16 + sy / 4) ::
              (sy % 4 * 64 + sz) :: tail
  | [] => some []
  | _ => none

theorem encChar_ne_61 (s : Nat) (hs : s < 64) : encChar s ≠ 61 := by
  have h : ∀ t : Fin 64, encChar t.val ≠ 61 := by decide
  exact h ⟨s, hs⟩

theorem b64encode_ne_nil : ∀ (l : List Nat), l ≠ [] → b64encode l ≠ []
  | [], h => absurd rfl h
  | [_], _ => by simp [b64encode]
  | [_, _], _ => by simp [b64encode]
  | _ :: _ :: _ :: _, _ => by simp [b64encode]

theorem b64decode_b64encode : ∀ (l : List Nat), (∀ b ∈ l, b < 256) →
    b64decode (b64encode l) = some l
  | [], _ => rfl
  | [a], h => by
    have ha : a < 256 := h a (by simp)
    rw [show b64encode [a] =
        encChar (a / 4) :: encChar (a % 4 * 16) :: 61 :: 61 :: [] from rfl]
    simp only [b64decode]
    rw [decChar_encChar _ (by omega), decChar_encChar _ (by omega)]
    simp only [Option.some_bind]
    rw [if_pos (by simp)]
    simp only [Option.some.injEq, List.cons.injEq, and_true]
    omega
  | [a, b], h => by
    have ha : a < 256 := h a (by simp)
    have hb : b < 256 := h b (by simp)
    rw [show b64encode [a, b] =
        encChar (a / 4) :: encChar (a % 4 * 16 + b / 16) ::
          encChar (b % 16 * 4) :: 61 :: [] from rfl]
    simp only [b64decode]
    rw [decChar_encChar _ (by omega), decChar_encChar _ (by omega)]
    simp only [Option.some_bind]
    rw [if_neg (fun hcon => encChar_ne_61 _ (by omega) hcon.1)]
    rw [if_pos (by simp)]
    rw [decChar_encChar _ (by omega)]
    simp only [Option.some_bind, Option.some.injEq, List.cons.injEq, and_true]
    constructor <;> omega
  | [a, b, c], h => by
    have ha : a < 256 := h a (by simp)
    have hb : b < 256 := h b (by simp)
    have hc : c < 256 := h c (by simp)
    rw [show b64encode [a, b, c] =
        encChar (a / 4) :: encChar (a % 4 * 16 + b / 16) ::
          encChar (b % 16 * 4 + c / 64) :: encChar (c % 64) :: [] from rfl]
    simp only [b64decode]
    rw [decChar_encChar _ (by omega), decChar_encChar _ (by omega)]
    simp only [Option.some_bind]
    rw [if_neg (fun hcon => encChar_ne_61 _ (by omega) hcon.1)]
    rw [if_neg (fun hcon => encChar_ne_61 _ (by omega) hcon.1)]
    rw [decChar_encChar _ (by omega), decChar_encChar _ (by omega)]
    simp only [Option.some_bind, Option.map_some', Option.some.injEq,
      List.cons.injEq, and_true, eq_self_iff_true, and_self]
    refine ⟨by omega, by omega, by omega⟩
  | a :: b :: c :: d :: rest, h => by
    have ha : a < 256 := h a (by simp)
    have hb : b < 256 := h b (by simp)
    have hc : c < 256 := h c (by simp)
    have ih := b64decode_b64encode (d :: rest) (fun x hx => h x (by simp [hx]))
    rw [show b64encode (a :: b :: c :: d :: rest) =
        encChar (a / 4) :: encChar (a % 4 * 16 + b / 16) ::
          encChar (b % 16 * 4 + c / 64) :: encChar (c % 64) ::
            b64encode (d :: rest) from rfl]
    simp only [b64decode]
    rw [decChar_encChar _ (by omega), decChar_encChar _ (by omega)]
    simp only [Option.some_bind]
    rw [if_neg (fun hcon => encChar_ne_61 _ (by omega) hcon.1)]
    rw [if_neg (fun hcon => encChar_ne_61 _ (by omega) hcon.1)]
    rw [decChar_encChar _ (by omega), decChar_encChar _ (by omega)]
    simp only [Option.some_bind]
    rw [ih]
    simp only [Option.map_some', Option.some.injEq, List.cons.injEq, and_true,
      eq_self_iff_true, and_self]
    refine ⟨by omega, by omega, by omega⟩
  termination_by l => l.length

/-! ### encrypt_data, decrypt_data and key rotation -/

inductive CryptoError
  | valueError
deriving DecidableEq, Repr

structure Settings where
  ENCRYPTION_KEY : List Nat
deriving DecidableEq, Repr

/-- Translation of encrypt_data: reject empty plaintext, derive a per-call
key from the configured password and a fresh random 16-byte salt (the salt
and the 12-byte nonce drawn by secrets.token_bytes are passed in as the
random draws), encrypt with AES-GCM, and base64-encode salt, nonce and
ciphertext-plus-tag in that order; every library failure is re-raised as
the single ValueError. -/
def encrypt_data (key : List Nat) (salt nonce plaintext : List Nat) :
    Except CryptoError (List Nat) :=
  if plaintext = [] then .error .valueError
  else
    .ok (b64encode (salt ++ (nonce ++
      aesgcm_encrypt (deriveKey key salt) nonce plaintext)))

/-- Translation of decrypt_data: reject empty input, base64-decode, slice
bytes 0-16 as the salt, 16-28 as the nonce and the remainder as ciphertext
plus tag, derive the key with the stored salt and decrypt; every failure
(bad base64, truncation, tag mismatch) is re-raised as the single
ValueError. -/
def decrypt_data (key : List Nat) (ciphertext : List Nat) :
    Except CryptoError (List Nat) :=
  if ciphertext = [] then .error .valueError
  else
    match (b64decode ciphertext).bind (fun data =>
        aesgcm_decrypt (deriveKey key (data.take 16))
          ((data.drop 16).take 12) (data.drop 28)) with
    | none => .error .valueError
    | some pt => .ok pt

theorem mem_append3_lt (xs ys zs : List Nat)
    (hx : ∀ b ∈ xs, b < 256) (hy : ∀ b ∈ ys, b < 256)
    (hz : ∀ b ∈ zs, b < 256) : ∀ b ∈ xs ++ (ys ++ zs), b < 256 := by
  intro b hb
  rcases List.mem_append.mp hb with h | h
  · exact hx b h
  · rcases List.mem_append.mp h with h | h
    · exact hy b h
    · exact hz b h

theorem blob_take_salt (salt nonce rest : List Nat) (hs : salt.length = 16) :
    (salt ++ (nonce ++ rest)).take 16 = salt := by
  rw [← hs]
  exact List.take_left _ _

theorem blob_slice_nonce (salt nonce rest : List Nat) (hs : salt.length = 16)
    (hn : nonce.length = 12) :
    ((salt ++ (nonce ++ rest)).drop 16).take 12 = nonce := by
  rw [← hs, List.drop_left, ← hn, List.take_left]

theorem blob_drop_rest (salt nonce rest : List Nat) (hs : salt.length = 16)
    (hn : nonce.length = 12) :
    (salt ++ (nonce ++ rest)).drop 28 = rest := by
  rw [show (salt ++ (nonce ++ rest)).drop 28 =
      ((salt ++ (nonce ++ rest)).drop 16).drop 12 from
      (List.drop_drop 12 16 _).symm]
  rw [← hs, List.drop_left, ← hn, List.drop_left]

theorem decrypt_data_encrypt_data (key salt nonce pt : List Nat)
    (hptB : ∀ b ∈ pt, b < 256)
    (hs : salt.length = 16) (hsB : ∀ b ∈ salt, b < 256)
    (hn : nonce.length = 12) (hnB : ∀ b ∈ nonce, b < 256) :
    decrypt_data key (b64encode (salt ++ (nonce ++
      aesgcm_encrypt (deriveKey key salt) nonce pt))) = .ok pt := by
  have hB : ∀ b ∈ salt ++ (nonce ++
      aesgcm_encrypt (deriveKey key salt) nonce pt), b < 256 :=
    mem_append3_lt _ _ _ hsB hnB (aesgcm_encrypt_lt _ _ _)
  have hne : salt ++ (nonce ++
      aesgcm_encrypt (deriveKey key salt) nonce pt) ≠ [] := by
    intro hcon
    have h0 : salt = [] := (List.append_eq_nil.mp hcon).1
    rw [h0] at hs
    simp at hs
  unfold decrypt_data
  rw [if_neg (b64encode_ne_nil _ hne)]
  rw [b64decode_b64encode _ hB]
  simp only [Option.some_bind]
  rw [blob_take_salt _ _ _ hs, blob_slice_nonce _ _ _ hs hn,
    blob_drop_rest _ _ _ hs hn]
  rw [aesgcm_decrypt_encrypt _ _ _ hptB]

/-- C1: for every non-empty plaintext, decrypting the result of encryption
under the same configured key returns the plaintext, and two encryptions
of the same plaintext whose independently drawn random salt-nonce pairs
differ (which is what fresh independent draws give) produce different
output blobs. -/
theorem encrypt_data_roundtrip_and_fresh_blobs
    (key pt salt1 nonce1 salt2 nonce2 : List Nat)
    (hpt : pt ≠ []) (hptB : ∀ b ∈ pt, b < 256)
    (hs1 : salt1.length = 16) (hs1B : ∀ b ∈ salt1, b < 256)
    (hn1 : nonce1.length = 12) (hn1B : ∀ b ∈ nonce1, b < 256)
    (hs2 : salt2.length = 16) (hs2B : ∀ b ∈ salt2, b < 256)
    (hn2 : nonce2.length = 12) (hn2B : ∀ b ∈ nonce2, b < 256)
    (hfresh : salt1 ≠ salt2 ∨ nonce1 ≠ nonce2) :
    (∃ blob, encrypt_data key salt1 nonce1 pt = .ok blob ∧
      decrypt_data key blob = .ok pt) ∧
    encrypt_data key salt1 nonce1 pt ≠ encrypt_data key salt2 nonce2 pt := by
  constructor
  · exact ⟨_, by unfold encrypt_data; rw [if_neg hpt],
      decrypt_data_encrypt_data key salt1 nonce1 pt hptB hs1 hs1B hn1 hn1B⟩
  · intro heq
    unfold encrypt_data at heq
    rw [if_neg hpt, if_neg hpt] at heq
    simp only [Except.ok.injEq] at heq
    have hB1 : ∀ b ∈ salt1 ++ (nonce1 ++
        aesgcm_encrypt (deriveKey key salt1) nonce1 pt), b < 256 :=
      mem_append3_lt _ _ _ hs1B hn1B (aesgcm_encrypt_lt _ _ _)
    have hB2 : ∀ b ∈ salt2 ++ (nonce2 ++
        aesgcm_encrypt (deriveKey key salt2) nonce2 pt), b < 256 :=
      mem_append3_lt _ _ _ hs2B hn2B (aesgcm_encrypt_lt _ _ _)
    have hdec := congrArg b64decode heq
    rw [b64decode_b64encode _ hB1, b64decode_b64encode _ hB2] at hdec
    simp only [Option.some.injEq] at hdec
    have hsalt : salt1 = salt2 := by
      have h16 := congrArg (List.take 16) hdec
      rwa [blob_take_salt _ _ _ hs1, blob_take_salt _ _ _ hs2] at h16
    have hnonce : nonce1 = nonce2 := by
      have h12 := congrArg (fun l => (List.drop 16 l).take 12) hdec
      simp only at h12
      rwa [blob_slice_nonce _ _ _ hs1 hn1, blob_slice_nonce _ _ _ hs2 hn2]
        at h12
    rcases hfresh with hf | hf
    · exact hf hsalt
    · exact hf hnonce

def vaultKey : List Nat := [112, 119, 100]

def vaultPlain : List Nat := [72, 105]

def vaultSalt1 : List Nat := [0, 1, 2, 3, 4, 5, 6, 7, 8, 9, 10, 11, 12, 13, 14, 15]

def vaultSalt2 : List Nat := [99, 1, 2, 3, 4, 5, 6, 7, 8, 9, 10, 11, 12, 13, 14, 15]

def vaultNonce : List Nat := [0, 0, 0, 0, 0, 0, 0, 0, 0, 0, 0, 0]

/-- C1 witness: the round trip and the freshness separation evaluated at a
concrete key, plaintext and two distinct salt draws. -/
theorem encrypt_data_roundtrip_and_fresh_blobs_witness :
    (∃ blob, encrypt_data vaultKey vaultSalt1 vaultNonce vaultPlain = .ok blob ∧
      decrypt_data vaultKey blob = .ok vaultPlain) ∧
    encrypt_data vaultKey vaultSalt1 vaultNonce vaultPlain ≠
      encrypt_data vaultKey vaultSalt2 vaultNonce vaultPlain :=
  encrypt_data_roundtrip_and_fresh_blobs vaultKey vaultPlain vaultSalt1
    vaultNonce vaultSalt2 vaultNonce
    (by decide) (by decide) (by decide) (by decide) (by decide) (by decide)
    (by decide) (by decide) (by decide) (by decide) (Or.inl (by decide))

/-- Translation of rotate_encryption_key: save the process-wide key, point
the settings at the old key and decrypt, point them at the new key and
re-encrypt, restore the saved key and return; on any failure the except
block restores the saved key and re-raises a ValueError.  Reading the
global during decrypt and encrypt is modelled by passing the key the
global holds at that moment. -/
def rotate_encryption_key (st : Settings) (old_key new_key : List Nat)
    (salt nonce : List Nat) (encrypted_data : List Nat) :
    Except CryptoError (List Nat) × Settings :=
  let original_key := st.ENCRYPTION_KEY
  match decrypt_data old_key encrypted_data with
  | .error _ => (.error .valueError, { ENCRYPTION_KEY := original_key })
  | .ok plaintext =>
    match encrypt_data new_key salt nonce plaintext with
    | .error _ => (.error .valueError, { ENCRYPTION_KEY := original_key })
    | .ok out => (.ok out, { ENCRYPTION_KEY := original_key })

/-- C10: rotate_encryption_key leaves the process-wide settings with the
same ENCRYPTION_KEY as before the call, both when it returns normally and
when it raises, and its result is exactly the plaintext of the input under
the old key re-encrypted under the new key (with the error collapsing to
the single ValueError). -/
theorem rotate_encryption_key_frame_and_reencrypt (st : Settings)
    (old_key new_key salt nonce data : List Nat) :
    (rotate_encryption_key st old_key new_key salt nonce data).2 = st ∧
    (rotate_encryption_key st old_key new_key salt nonce data).1 =
      (decrypt_data old_key data).bind
        (fun pt => encrypt_data new_key salt nonce pt) := by
  unfold rotate_encryption_key
  cases hd : decrypt_data old_key data with
  | error e => cases e; exact ⟨rfl, rfl⟩
  | ok ptx =>
    dsimp only
    refine ⟨?_, ?_⟩
    · cases encrypt_data new_key salt nonce ptx with
      | error e => rfl
      | ok out => rfl
    · show _ = encrypt_data new_key salt nonce ptx
      cases encrypt_data new_key salt nonce ptx with
      | error e => cases e; rfl
      | ok out => rfl

end UserModule
